import Mathlib

/-!
Verification of the ITURHFProp HF-propagation prediction adapter
(`iturhfprop-service` server): the engine input serializer
(`generateInputFile`), the report output parser (`parseOutputFile`), the
engine runner (`runPrediction`), the hourly batch loop
(`GET /api/predict/hourly`), the band mapper (`GET /api/bands`) and the
hour defaulting of the single-point endpoint (`GET /api/predict`).

JavaScript strings are modelled through their character lists; JavaScript
numbers are modelled as `ℚ` with `Option ℚ` standing for number-or-NaN
(`none` = NaN).  The one floating-point transcendental the service uses,
`Math.log10`, is modelled by the exact real `Real.logb 10`; the single
numerical claim about it (`Path.txpower` for 100 W) is robust to several
ulps of error in `Math.log10`, so the exact-real model decides it
faithfully.
-/

namespace HFProp

/-! ## Character-list models of the JavaScript string primitives -/

/-- `pat` is a prefix of `l` (character-wise): the leading-match part of
`String.prototype.startsWith` / `includes`. -/
def leadMatch : List Char → List Char → Bool
  | [], _ => true
  | _ :: _, [] => false
  | p :: ps, c :: cs => p == c && leadMatch ps cs

/-- `pat` occurs somewhere in `l`: `String.prototype.includes`. -/
def hasSub (pat : List Char) : List Char → Bool
  | [] => pat.isEmpty
  | c :: rest => leadMatch pat (c :: rest) || hasSub pat rest

/-- `s.includes(pat)` on strings. -/
def strIncludes (s pat : String) : Bool := hasSub pat.data s.data

/-- `s.startsWith(pat)` on strings. -/
def strStarts (s pat : String) : Bool := leadMatch pat.data s.data

/-- `String.prototype.trim`: strip whitespace from both ends. -/
def jsTrim (s : String) : String :=
  ⟨((s.data.dropWhile Char.isWhitespace).reverse.dropWhile Char.isWhitespace).reverse⟩

/-- Split a character list at every occurrence of `sep`, keeping empty
pieces — the semantics of `String.prototype.split(sep)` for a one-character
separator.  `cur` is the current piece, reversed. -/
def splitChAux (sep : Char) : List Char → List Char → List (List Char)
  | [], cur => [cur.reverse]
  | c :: rest, cur =>
    if c == sep then cur.reverse :: splitChAux sep rest []
    else splitChAux sep rest (c :: cur)

/-- `s.split(sep)` for a one-character separator. -/
def strSplit (s : String) (sep : Char) : List String :=
  (splitChAux sep s.data []).map (⟨·⟩)

/-- `s.substring(0, n)`. -/
def strTake (s : String) (n : ℕ) : String := ⟨s.data.take n⟩

/-! ## `parseFloat`

`parseFloat` skips leading whitespace and reads the longest numeric
prefix (optional sign, decimal digits, optional fraction), ignoring any
trailing characters; if no digit is found the result is NaN, modelled as
`none`.  (The exponent and `Infinity` forms of the full grammar do not
occur in engine reports and are outside this model.) -/

/-- Decimal value of a digit list (most significant first). -/
def digitsVal (l : List Char) : ℕ :=
  l.foldl (fun a c => 10 * a + (c.toNat - 48)) 0

/-- `parseFloat(s)`, with `none` for NaN.  The value of the literal
`i.f` is the rational `(i·10^k + f) / 10^k` where `k` is the number of
fraction digits, built with `mkRat` so that it evaluates by computation. -/
def jsParseFloat (s : String) : Option ℚ :=
  let cs := s.data.dropWhile Char.isWhitespace
  let sign : Bool := match cs with
    | '-' :: _ => true
    | _ => false
  let cs1 := match cs with
    | '-' :: t => t
    | '+' :: t => t
    | _ => cs
  let intd := cs1.takeWhile Char.isDigit
  let rest := cs1.dropWhile Char.isDigit
  let fracd := match rest with
    | '.' :: t => t.takeWhile Char.isDigit
    | _ => []
  if intd.isEmpty && fracd.isEmpty then none
  else
    let v : ℚ := mkRat (digitsVal intd * 10 ^ fracd.length + digitsVal fracd) (10 ^ fracd.length)
    some (if sign then Rat.neg v else v)

/-! ## The report output parser (`parseOutputFile`) -/

/-- One parsed data row of the "Calculated Parameters" table:
frequency (MHz), received power (dBW), SNR (dB) and basic circuit
reliability (%).  The last three are raw `parseFloat` results and may be
NaN (`none`). -/
structure FreqRec where
  freq : ℚ
  sdbw : Option ℚ
  snr : Option ℚ
  reliability : Option ℚ
  deriving Repr, DecidableEq

/-- The parser's result object: the data rows, the head of the raw report
kept for debugging, the MUF scraped from the header, and the error message
set only when reading the report file threw. -/
structure ParseResult where
  frequencies : List FreqRec
  raw : Option String
  muf : Option ℚ
  error : Option String
  deriving Repr, DecidableEq

/-- A (trimmed) line opening the data table:
`trimmed.includes('Calculated Parameters') && !trimmed.includes('End')`. -/
def isHeaderLine (t : String) : Bool :=
  strIncludes t "Calculated Parameters" && !strIncludes t "End"

/-- A (trimmed) line carrying a table end marker:
`trimmed.includes('End Calculated') || trimmed.includes('*****')`. -/
def isEndMarker (t : String) : Bool :=
  strIncludes t "End Calculated" || strIncludes t "*****"

/-- A (trimmed) line eligible for data parsing:
`trimmed && !trimmed.startsWith('*') && !trimmed.startsWith('-')`. -/
def isDataCandidate (t : String) : Bool :=
  !t.data.isEmpty && !strStarts t "*" && !strStarts t "-"

/-- The comma-split, field-trimmed parts of a (trimmed) data line:
`trimmed.split(',').map(p => p.trim())`. -/
def rowParts (t : String) : List String := (strSplit t ',').map jsTrim

/-- The data-row body of the scan loop: split the line on commas, and when
it has at least 6 fields and field 2 parses to a positive frequency, push
the record `{freq, sdbw, snr, reliability}` built from fields 2–5. -/
def dataStep (t : String) (acc : List FreqRec) : List FreqRec :=
  let parts := rowParts t
  if 6 ≤ parts.length then
    match jsParseFloat (parts.getD 2 "") with
    | some freq =>
      if 0 < freq then
        acc ++ [{ freq := freq
                  sdbw := jsParseFloat (parts.getD 3 "")
                  snr := jsParseFloat (parts.getD 4 "")
                  reliability := jsParseFloat (parts.getD 5 "") }]
      else acc
    | none => acc
  else acc

/-- The line scan of `parseOutputFile`: `inData` is the
OUTSIDE_TABLE/INSIDE_TABLE flag (`inDataSection`), `acc` the rows collected
so far.  A header line sets the flag; an end marker breaks the loop only
when the flag is set and at least one row was collected; otherwise an
eligible line inside the table is fed to `dataStep`. -/
def scanLines : List String → Bool → List FreqRec → List FreqRec
  | [], _, acc => acc
  | line :: rest, inData, acc =>
    let t := jsTrim line
    if isHeaderLine t then scanLines rest true acc
    else if isEndMarker t && (inData && 0 < acc.length) then acc
    else if inData && isDataCandidate t then
      scanLines rest inData (dataStep t acc)
    else scanLines rest inData acc

/-! ### MUF extraction

`output.match(/(?:BMUF|MUF|Operational MUF)\s*[:=]?\s*([\d.]+)/i)`:
scan for the first position where one of the three keywords
(case-insensitively, tried in alternation order) is followed by optional
whitespace, an optional `:` or `=`, optional whitespace and a nonempty run
of digits/dots; the captured run goes through `parseFloat`.  (A capture
with no digit yields NaN in JavaScript; the model conflates that with no
match, which no behaviour proved here depends on.) -/

/-- Case-insensitive `leadMatch`. -/
def leadMatchCI : List Char → List Char → Bool
  | [], _ => true
  | _ :: _, [] => false
  | p :: ps, c :: cs => p.toLower == c.toLower && leadMatchCI ps cs

/-- `\s*[:=]?\s*([\d.]+)` — the capture, if it is nonempty. -/
def numCapture (l : List Char) : Option (List Char) :=
  let l1 := l.dropWhile Char.isWhitespace
  let l2 := match l1 with
    | c :: rest => if c == ':' || c == '=' then rest else l1
    | [] => []
  let l3 := l2.dropWhile Char.isWhitespace
  let num := l3.takeWhile fun c => c.isDigit || c == '.'
  if num.isEmpty then none else some num

/-- Scan the text left to right for the first keyword-plus-number match,
keywords tried in the regex's alternation order. -/
def scanMUF : List Char → Option (List Char)
  | [] => none
  | c :: rest =>
    match (if leadMatchCI "BMUF".data (c :: rest) then
             numCapture ((c :: rest).drop 4) else none) with
    | some n => some n
    | none =>
      match (if leadMatchCI "MUF".data (c :: rest) then
               numCapture ((c :: rest).drop 3) else none) with
      | some n => some n
      | none =>
        match (if leadMatchCI "Operational MUF".data (c :: rest) then
                 numCapture ((c :: rest).drop 15) else none) with
        | some n => some n
        | none => scanMUF rest

/-- The MUF value scraped from the raw report text. -/
def extractMUF (s : String) : Option ℚ :=
  (scanMUF s.data).bind fun n => jsParseFloat ⟨n⟩

/-- Parse a successfully read report: split into lines, run the table
scan, keep the first 3000 characters raw, scrape the MUF. -/
def parseReport (s : String) : ParseResult :=
  { frequencies := scanLines (strSplit s '\n') false []
    raw := some (strTake s 3000)
    muf := extractMUF s
    error := none }

/-- `parseOutputFile`: the whole body runs under `try`/`catch`; reading
the report file either yields its text (`Except.ok`) or throws
(`Except.error message`, e.g. ENOENT for a missing file), in which case
the catch arm returns `{ error: err.message, frequencies: [] }`. -/
def parseOutputFile : Except String String → ParseResult
  | .ok s => parseReport s
  | .error msg => { frequencies := [], raw := none, muf := none, error := some msg }

/-! ## Report texts as joined lines -/

/-- Join character-list lines with `'\n'`. -/
def joinNLAux : List (List Char) → List Char
  | [] => []
  | [x] => x
  | x :: xs => x ++ '\n' :: joinNLAux xs

/-- A report text assembled from its lines (inverse of splitting on
newlines, for lines that contain none). -/
def joinLines (ls : List String) : String := ⟨joinNLAux (ls.map String.data)⟩

theorem splitChAux_no_sep (sep : Char) :
    ∀ (xs cur : List Char), (∀ c ∈ xs, (c == sep) = false) →
      splitChAux sep xs cur = [cur.reverse ++ xs] := by
  intro xs
  induction xs with
  | nil => intro cur _; simp [splitChAux]
  | cons c rest ih =>
    intro cur h
    have hc : (c == sep) = false := h c (List.mem_cons_self c rest)
    have hrest : ∀ x ∈ rest, (x == sep) = false := fun x hx => h x (List.mem_cons_of_mem c hx)
    simp only [splitChAux, hc, Bool.false_eq_true, if_false, ih (c :: cur) hrest,
      List.reverse_cons, List.append_assoc, List.cons_append, List.nil_append]

theorem splitChAux_sep (sep : Char) :
    ∀ (xs cur rest : List Char), (∀ c ∈ xs, (c == sep) = false) →
      splitChAux sep (xs ++ sep :: rest) cur =
        (cur.reverse ++ xs) :: splitChAux sep rest [] := by
  intro xs
  induction xs with
  | nil =>
    intro cur rest _
    simp [splitChAux]
  | cons c t ih =>
    intro cur rest h
    have hc : (c == sep) = false := h c (List.mem_cons_self c t)
    have ht : ∀ x ∈ t, (x == sep) = false := fun x hx => h x (List.mem_cons_of_mem c hx)
    rw [show (c :: t) ++ sep :: rest = c :: (t ++ sep :: rest) from rfl,
      show splitChAux sep (c :: (t ++ sep :: rest)) cur =
        (if c == sep then cur.reverse :: splitChAux sep (t ++ sep :: rest) []
         else splitChAux sep (t ++ sep :: rest) (c :: cur)) from rfl, hc]
    simp only [Bool.false_eq_true, if_false]
    rw [ih (c :: cur) rest ht]
    simp

/-- Splitting the joined lines on `'\n'` recovers the lines, when no line
contains a newline. -/
theorem strSplit_joinLines :
    ∀ ls : List String, ls ≠ [] → (∀ l ∈ ls, ∀ c ∈ l.data, (c == '\n') = false) →
      strSplit (joinLines ls) '\n' = ls := by
  intro ls
  induction ls with
  | nil => intro h; exact absurd rfl h
  | cons x rest ih =>
    intro _ h
    have hx : ∀ c ∈ x.data, (c == '\n') = false := h x (List.mem_cons_self x rest)
    cases rest with
    | nil =>
      simp only [strSplit, joinLines, joinNLAux, List.map_cons, List.map_nil]
      rw [splitChAux_no_sep '\n' x.data [] hx]
      simp
    | cons y t =>
      have hrest : ∀ l ∈ y :: t, ∀ c ∈ l.data, (c == '\n') = false :=
        fun l hl => h l (List.mem_cons_of_mem x hl)
      have ihr := ih (List.cons_ne_nil y t) hrest
      simp only [strSplit, joinLines, List.map_cons] at ihr ⊢
      rw [show joinNLAux (x.data :: y.data :: t.map String.data) =
            x.data ++ '\n' :: joinNLAux (y.data :: t.map String.data) from rfl,
        splitChAux_sep '\n' x.data [] (joinNLAux (y.data :: t.map String.data)) hx]
      simp only [List.reverse_nil, List.nil_append, List.map_cons]
      rw [ihr]

/-! ## Single steps of the table scan -/

/-- A whole line accepted as a data row: not a header, not an end marker,
eligible for parsing, at least 6 comma fields, and a frequency field that
parses to a positive (finite) value. -/
def goodDataRow (line : String) : Bool :=
  !isHeaderLine (jsTrim line) && !isEndMarker (jsTrim line) && isDataCandidate (jsTrim line) &&
  decide (6 ≤ (rowParts (jsTrim line)).length) &&
  (match jsParseFloat ((rowParts (jsTrim line)).getD 2 "") with
   | some q => decide (0 < q)
   | none => false)

/-- The record a data row contributes: field 2 is the frequency, field 3
the received power, field 4 the SNR, field 5 the reliability/BCR. -/
def rowRec (line : String) : FreqRec :=
  { freq := (jsParseFloat ((rowParts (jsTrim line)).getD 2 "")).getD 0
    sdbw := jsParseFloat ((rowParts (jsTrim line)).getD 3 "")
    snr := jsParseFloat ((rowParts (jsTrim line)).getD 4 "")
    reliability := jsParseFloat ((rowParts (jsTrim line)).getD 5 "") }

theorem scan_header (line : String) (rest : List String) (inData : Bool)
    (acc : List FreqRec) (h : isHeaderLine (jsTrim line) = true) :
    scanLines (line :: rest) inData acc = scanLines rest true acc := by
  simp [scanLines, h]

theorem scan_data (line : String) (rest : List String) (acc : List FreqRec)
    (h : goodDataRow line = true) :
    scanLines (line :: rest) true acc = scanLines rest true (acc ++ [rowRec line]) := by
  simp only [goodDataRow, Bool.and_eq_true, Bool.not_eq_true'] at h
  obtain ⟨⟨⟨⟨hh, hm⟩, hc⟩, hlen⟩, hfreq⟩ := h
  have hlen' : 6 ≤ (rowParts (jsTrim line)).length := of_decide_eq_true hlen
  rw [show scanLines (line :: rest) true acc =
      (if isHeaderLine (jsTrim line) then scanLines rest true acc
       else if isEndMarker (jsTrim line) && (true && decide (0 < acc.length)) then acc
       else if true && isDataCandidate (jsTrim line) then
         scanLines rest true (dataStep (jsTrim line) acc)
       else scanLines rest true acc) from rfl, hh, hm, hc]
  simp only [Bool.false_eq_true, if_false, Bool.false_and, Bool.true_and, if_true]
  congr 1
  unfold dataStep
  rw [if_pos hlen']
  cases heq : jsParseFloat ((rowParts (jsTrim line)).getD 2 "") with
  | none => rw [heq] at hfreq; exact absurd hfreq (by simp)
  | some q =>
    rw [heq] at hfreq
    have hq : 0 < q := of_decide_eq_true hfreq
    simp only [hq, if_pos]
    unfold rowRec
    rw [heq]
    rfl

theorem scan_end (line : String) (rest : List String) (acc : List FreqRec)
    (hm : isEndMarker (jsTrim line) = true) (hh : isHeaderLine (jsTrim line) = false)
    (hacc : acc ≠ []) :
    scanLines (line :: rest) true acc = acc := by
  have hlen : decide (0 < acc.length) = true := by
    simp [List.length_pos, hacc]
  rw [show scanLines (line :: rest) true acc =
      (if isHeaderLine (jsTrim line) then scanLines rest true acc
       else if isEndMarker (jsTrim line) && (true && decide (0 < acc.length)) then acc
       else if true && isDataCandidate (jsTrim line) then
         scanLines rest true (dataStep (jsTrim line) acc)
       else scanLines rest true acc) from rfl, hh, hm, hlen]
  simp

theorem scan_end_before_rows (line : String) (rest : List String)
    (hh : isHeaderLine (jsTrim line) = false) :
    scanLines (line :: rest) true [] =
      scanLines rest true
        (if isDataCandidate (jsTrim line) then dataStep (jsTrim line) [] else []) := by
  rw [show scanLines (line :: rest) true [] =
      (if isHeaderLine (jsTrim line) then scanLines rest true []
       else if isEndMarker (jsTrim line) && (true && decide (0 < ([] : List FreqRec).length)) then []
       else if true && isDataCandidate (jsTrim line) then
         scanLines rest true (dataStep (jsTrim line) [])
       else scanLines rest true []) from rfl, hh,
    show decide (0 < ([] : List FreqRec).length) = false from rfl]
  simp only [Bool.false_eq_true, if_false, Bool.and_false, Bool.true_and]
  cases hc : isDataCandidate (jsTrim line) <;> simp

/-! ## Claim C1 -/

/-- C1.  A report text made of a "Calculated Parameters" header line (one
not containing "End"), three well-formed comma-separated data rows of at
least 6 fields whose frequency field parses to a positive finite value,
and an "End Calculated" footer, parses to exactly those 3 records in row
order, each record taking its frequency from field index 2, received
power from index 3, SNR from index 4 and reliability/BCR from index 5. -/
theorem parseOutputFile_three_row_table
    (hd r1 r2 r3 ft : String)
    (hhd : isHeaderLine (jsTrim hd) = true)
    (hr1 : goodDataRow r1 = true) (hr2 : goodDataRow r2 = true) (hr3 : goodDataRow r3 = true)
    (hft : isEndMarker (jsTrim ft) = true) (hfh : isHeaderLine (jsTrim ft) = false)
    (nhd : ∀ c ∈ hd.data, (c == '\n') = false)
    (nr1 : ∀ c ∈ r1.data, (c == '\n') = false)
    (nr2 : ∀ c ∈ r2.data, (c == '\n') = false)
    (nr3 : ∀ c ∈ r3.data, (c == '\n') = false)
    (nft : ∀ c ∈ ft.data, (c == '\n') = false) :
    (parseOutputFile (.ok (joinLines [hd, r1, r2, r3, ft]))).frequencies
      = [rowRec r1, rowRec r2, rowRec r3] := by
  have hnl : ∀ l ∈ [hd, r1, r2, r3, ft], ∀ c ∈ l.data, (c == '\n') = false := by
    intro l hl
    simp only [List.mem_cons, List.not_mem_nil, or_false] at hl
    rcases hl with rfl | rfl | rfl | rfl | rfl
    exacts [nhd, nr1, nr2, nr3, nft]
  have hsplit : strSplit (joinLines [hd, r1, r2, r3, ft]) '\n' = [hd, r1, r2, r3, ft] :=
    strSplit_joinLines _ (by simp) hnl
  show scanLines (strSplit (joinLines [hd, r1, r2, r3, ft]) '\n') false [] = _
  rw [hsplit, scan_header _ _ _ _ hhd, scan_data _ _ _ hr1, scan_data _ _ _ hr2,
    scan_data _ _ _ hr3, scan_end _ _ _ hft hfh (by simp)]
  simp

/-- Witness for C1: a concrete three-row report. -/
theorem parseOutputFile_three_row_table_witness :
    (parseOutputFile (.ok (joinLines
      ["    Calculated Parameters    ",
       "02, 05,    2.000,-120.29, -16.04,   0.00",
       "02, 05,    7.100, -95.52,  10.25,  62.50",
       "02, 05,   14.100, -80.07,  20.00,  97.30",
       "End Calculated Parameters"]))).frequencies
      = [rowRec "02, 05,    2.000,-120.29, -16.04,   0.00",
         rowRec "02, 05,    7.100, -95.52,  10.25,  62.50",
         rowRec "02, 05,   14.100, -80.07,  20.00,  97.30"] :=
  parseOutputFile_three_row_table _ _ _ _ _ (by decide!) (by decide!) (by decide!)
    (by decide!) (by decide!) (by decide!) (by decide!) (by decide!) (by decide!)
    (by decide!) (by decide!)

/-! ## Claim C2 -/

/-- C2 counterexample.  An empty — readable but garbled — report does
degrade to an empty frequency list, but the result carries NO error
field (`error = none`): the claim's "returns ... a descriptive error
field" fails on this input. -/
theorem parseOutputFile_empty_report_has_no_error_field :
    (parseOutputFile (.ok "")).frequencies = [] ∧
      (parseOutputFile (.ok "")).error = none := by
  exact ⟨rfl, rfl⟩

/-- C2 as amended.  The parser is total (never throws past its boundary:
every input maps to a `ParseResult`): when reading the report file throws
(unreadable/missing file) it returns an empty frequency list together with
the error message; a readable report with no usable rows — e.g. the empty
report — degrades to an empty frequency list with no error field set. -/
theorem parseOutputFile_degrades_without_throwing :
    (∀ msg : String, parseOutputFile (.error msg)
        = { frequencies := [], raw := none, muf := none, error := some msg }) ∧
      (parseOutputFile (.ok "")).frequencies = [] ∧
      (parseOutputFile (.ok "")).error = none :=
  ⟨fun _ => rfl, rfl, rfl⟩

/-! ## Claim C8 -/

/-- C8.  Inside the table, a line containing "End Calculated" or an
asterisk banner ends the scan only when at least one data row has been
collected: with a nonempty accumulator the scan stops and returns it;
with no rows yet the marker line is not treated as end-of-table and the
scan continues with the remaining lines (the marker line itself falling
through to ordinary data-row treatment). -/
theorem scanLines_end_marker_needs_rows (line : String) (rest : List String)
    (acc : List FreqRec)
    (hm : isEndMarker (jsTrim line) = true) (hh : isHeaderLine (jsTrim line) = false) :
    (acc ≠ [] → scanLines (line :: rest) true acc = acc) ∧
      scanLines (line :: rest) true [] =
        scanLines rest true
          (if isDataCandidate (jsTrim line) then dataStep (jsTrim line) [] else []) :=
  ⟨fun hacc => scan_end line rest acc hm hh hacc,
    scan_end_before_rows line rest hh⟩

/-- Witness for C8: a concrete asterisk banner, one collected row, one
further line. -/
theorem scanLines_end_marker_needs_rows_witness :
    (([⟨2, none, none, none⟩] : List FreqRec) ≠ [] →
        scanLines ["**********************", "02, 05, 14.1, -80, 20, 97"] true
          [⟨2, none, none, none⟩] = [⟨2, none, none, none⟩]) ∧
      scanLines ["**********************", "02, 05, 14.1, -80, 20, 97"] true [] =
        scanLines ["02, 05, 14.1, -80, 20, 97"] true
          (if isDataCandidate (jsTrim "**********************") then
            dataStep (jsTrim "**********************") [] else []) :=
  scanLines_end_marker_needs_rows "**********************"
    ["02, 05, 14.1, -80, 20, 97"] [⟨2, none, none, none⟩] (by decide!) (by decide!)

/-! ## The band mapper (`GET /api/bands`) -/

/-- The fixed HF band table (MHz), in its object-literal order. -/
def HF_BANDS : List (String × ℚ) :=
  [("160m", 2), ("80m", 35/10), ("60m", 53/10), ("40m", 71/10), ("30m", 101/10),
   ("20m", 141/10), ("17m", 181/10), ("15m", 211/10), ("12m", 249/10),
   ("11m", 27), ("10m", 281/10)]

/-- `bandFreqs.find(([name, freq]) => Math.abs(freq - freqResult.freq) < 1)`:
the first band of the table within 1 MHz of the result entry's frequency. -/
def findBandEntry (f : ℚ) : Option (String × ℚ) :=
  HF_BANDS.find? fun b => decide (|b.2 - f| < 1)

/-- The name of the band a result entry maps to, if any. -/
def bandKey (r : FreqRec) : Option String := (findBandEntry r.freq).map Prod.fst

/-- `reliability >= t` on a possibly-NaN JavaScript number: NaN compares
false. -/
def relGE (r : Option ℚ) (t : ℚ) : Bool :=
  match r with
  | some q => decide (t ≤ q)
  | none => false

/-- `reliability >= 70 ? 'GOOD' : reliability >= 40 ? 'FAIR' : 'POOR'`. -/
def bandStatus (r : Option ℚ) : String :=
  if relGE r 70 then "GOOD" else if relGE r 40 then "FAIR" else "POOR"

/-- The per-band value assembled by the endpoint. -/
structure BandInfo where
  freq : ℚ
  reliability : Option ℚ
  snr : Option ℚ
  sdbw : Option ℚ
  status : String
  deriving Repr, DecidableEq

/-- The object assigned to `bands[bandName]` for a matching result entry. -/
def mkBandInfo (r : FreqRec) : BandInfo :=
  { freq := r.freq, reliability := r.reliability, snr := r.snr, sdbw := r.sdbw,
    status := bandStatus r.reliability }

/-- The `bands` object built by the loop over `results.frequencies`:
for each result entry, find its first within-tolerance band and assign
(overwriting any earlier assignment to the same key).  The JavaScript
object is modelled by its lookup function. -/
def buildBands (freqs : List FreqRec) : String → Option BandInfo :=
  freqs.foldl
    (fun bands r =>
      match findBandEntry r.freq with
      | some (bandName, _) =>
        fun q => if q = bandName then some (mkBandInfo r) else bands q
      | none => bands)
    (fun _ => none)

/-- JavaScript-style `a ?? b` on options, used to state the fold. -/
def optOr {α : Type} (a b : Option α) : Option α :=
  match a with
  | some x => some x
  | none => b

theorem optOr_none_right {α : Type} (a : Option α) : optOr a none = a := by
  cases a <;> rfl

theorem optOr_assoc {α : Type} (a b c : Option α) :
    optOr (optOr a b) c = optOr a (optOr b c) := by
  cases a <;> rfl

theorem getLast?_cons_optOr {α : Type} (a : α) (l : List α) :
    (a :: l).getLast? = optOr l.getLast? (some a) := by
  induction l with
  | nil => rfl
  | cons b t _ =>
    rw [List.getLast?_cons_cons]
    cases hl : (b :: t).getLast? with
    | none => exact absurd hl (by simp)
    | some x => rfl

theorem map_optOr {α β : Type} (f : α → β) (a b : Option α) :
    (optOr a b).map f = optOr (a.map f) (b.map f) := by
  cases a <;> rfl

theorem buildBands_foldl (k : String) :
    ∀ (freqs : List FreqRec) (m0 : String → Option BandInfo),
      (freqs.foldl
        (fun bands r =>
          match findBandEntry r.freq with
          | some (bandName, _) =>
            fun q => if q = bandName then some (mkBandInfo r) else bands q
          | none => bands) m0) k
      = optOr
          (((freqs.filter fun r => decide (bandKey r = some k)).getLast?).map mkBandInfo)
          (m0 k) := by
  intro freqs
  induction freqs with
  | nil => intro m0; rfl
  | cons r t ih =>
    intro m0
    rw [List.foldl_cons]
    cases hb : findBandEntry r.freq with
    | none =>
      have hk : decide (bandKey r = some k) = false := by
        simp [bandKey, hb]
      simp only [hb, List.filter_cons, hk, Bool.false_eq_true, if_false]
      exact ih m0
    | some nf =>
      obtain ⟨name, f⟩ := nf
      by_cases hnk : name = k
      · subst hnk
        have hk : decide (bandKey r = some name) = true := by
          simp [bandKey, hb]
        simp only [hb, List.filter_cons, hk, if_true]
        rw [ih]
        rw [if_pos rfl, getLast?_cons_optOr, map_optOr, optOr_assoc]
        rfl
      · have hk : decide (bandKey r = some k) = false := by
          simp [bandKey, hb, hnk]
        simp only [hb, List.filter_cons, hk, Bool.false_eq_true, if_false]
        rw [ih]
        rw [if_neg fun h => hnk h.symm]

/-! ## Claim C7 -/

/-- C7 as amended.  Each band name maps to the value derived from the
LAST result entry (in result order) whose first within-1-MHz band, under
ascending band-table iteration order, is that band — a later matching
entry overwrites an earlier one; bands with no matching entry are absent
(`none`).  Matched entries get status GOOD when reliability ≥ 70, FAIR
when 40 ≤ reliability < 70 and POOR otherwise (69.99 → FAIR,
39.99 → POOR). -/
theorem buildBands_last_match_and_status (freqs : List FreqRec) (k : String) :
    buildBands freqs k
        = ((freqs.filter fun r => decide (bandKey r = some k)).getLast?).map mkBandInfo ∧
      bandStatus (some (6999/100)) = "FAIR" ∧
      bandStatus (some (3999/100)) = "POOR" ∧
      (∀ q : ℚ, 70 ≤ q → bandStatus (some q) = "GOOD") ∧
      (∀ q : ℚ, 40 ≤ q → q < 70 → bandStatus (some q) = "FAIR") ∧
      (∀ q : ℚ, q < 40 → bandStatus (some q) = "POOR") := by
  refine ⟨?_, by decide!, by decide!, ?_, ?_, ?_⟩
  · rw [buildBands, buildBands_foldl k freqs (fun _ => none), optOr_none_right]
  · intro q hq
    simp [bandStatus, relGE, hq]
  · intro q hq1 hq2
    simp [bandStatus, relGE, hq1, not_le.mpr hq2]
  · intro q hq
    have h70 : ¬ (70 : ℚ) ≤ q := not_le.mpr (lt_trans hq (by norm_num))
    simp [bandStatus, relGE, not_le.mpr hq, h70]

/-- C7 counterexample.  With result entries at 14.05 MHz and 14.2 MHz
(both within 1 MHz of the 20m nominal 14.1), the code assigns `20m` the
LAST entry (14.2), not the first (14.05) as the claim states. -/
theorem buildBands_overwrite_counterexample :
    buildBands [⟨1405/100, some (-80), some 10, some 80⟩,
                ⟨142/10, some (-90), some 5, some 10⟩] "20m"
        = some (mkBandInfo ⟨142/10, some (-90), some 5, some 10⟩) ∧
      some (mkBandInfo ⟨142/10, some (-90), some 5, some 10⟩)
        ≠ some (mkBandInfo ⟨1405/100, some (-80), some 10, some 80⟩) := by
  exact ⟨by decide!, by decide!⟩

/-! ## The input serializer (`generateInputFile`)

`Number.prototype.toFixed(f)` picks the integer `n` minimising the
distance of `n / 10^f` to the magnitude, ties resolved to the larger `n`
(that is, `n = ⌊|x|·10^f + 1/2⌋`), and prefixes the sign. -/

/-- Left-pad a digit string with zeros to `f` digits. -/
def padZeros (s : String) (f : ℕ) : String :=
  ⟨List.replicate (f - s.data.length) '0' ++ s.data⟩

/-- Render `n / 10^f` as a fixed-point digit string. -/
def fixedRender (n f : ℕ) : String :=
  if f = 0 then toString n
  else toString (n / 10 ^ f) ++ "." ++ padZeros (toString (n % 10 ^ f)) f

/-- `q.toFixed(f)` for a rational JavaScript number. -/
def qToFixed (f : ℕ) (q : ℚ) : String :=
  (if q < 0 then "-" else "") ++ fixedRender (Int.toNat ⌊|q| * 10 ^ f + 1/2⌋) f

/-- `x.toFixed(f)` for a real value (used for the one field computed
through `Math.log10`). -/
noncomputable def rToFixed (f : ℕ) (x : ℝ) : String :=
  (if x < 0 then "-" else "") ++ fixedRender (Int.toNat ⌊|x| * 10 ^ f + 1/2⌋) f

/-- `10 * Math.log10(txPower / 1000)` — watts to dBkW, with `Math.log10`
modelled by the exact real logarithm. -/
noncomputable def txpowerReal (txPower : ℚ) : ℝ :=
  10 * Real.logb 10 ((txPower : ℝ) / 1000)

/-- The parameters of one prediction, with the destructuring defaults of
`generateInputFile`.  `hour` is `none` when the incoming value was NaN. -/
structure PredParams where
  txLat : ℚ
  txLon : ℚ
  rxLat : ℚ
  rxLon : ℚ
  year : ℤ
  month : ℤ
  hour : Option ℤ
  ssn : ℤ := 100
  txPower : ℚ := 100
  frequencies : List ℚ := HF_BANDS.map Prod.snd
  manMadeNoise : String := "RESIDENTIAL"
  requiredReliability : ℤ := 90
  requiredSNR : ℤ := 15

/-- `isNaN(hour) ? 12 : (hour === 0 ? 24 : hour)` — the engine's
hour-of-day field, with hour 0 written as 24. -/
def pathHourVal : Option ℤ → ℤ
  | none => 12
  | some h => if h = 0 then 24 else h

/-- The `Path.hour` line of the input file. -/
def pathHourLine (p : PredParams) : String :=
  "Path.hour " ++ toString (pathHourVal p.hour)

/-- The `Path.txpower` line of the input file. -/
noncomputable def txpowerLine (p : PredParams) : String :=
  "Path.txpower " ++ rToFixed 1 (txpowerReal p.txPower)

/-- The engine reference-data root (`ITURHFPROP_DATA`, default). -/
def ITURHFPROP_DATA : String := "/opt/iturhfprop"

/-- The lines of the generated engine input file.  (The `txLatStr` …
`rxLonStr` degrees-with-hemisphere strings the function also computes are
dead code: the template uses `toFixed(4)` coordinates directly.) -/
noncomputable def generateInputFile (p : PredParams) : List String :=
  [ "PathName \"OpenHamClock\"",
    "PathTXName \"TX\"",
    "Path.L_tx.lat " ++ qToFixed 4 p.txLat,
    "Path.L_tx.lng " ++ qToFixed 4 p.txLon,
    "TXAntFilePath \"ISOTROPIC\"",
    "TXGOS 0.0",
    "PathRXName \"RX\"",
    "Path.L_rx.lat " ++ qToFixed 4 p.rxLat,
    "Path.L_rx.lng " ++ qToFixed 4 p.rxLon,
    "RXAntFilePath \"ISOTROPIC\"",
    "RXGOS 0.0",
    "AntennaOrientation \"TX2RX\"",
    "Path.year " ++ toString p.year,
    "Path.month " ++ toString p.month,
    pathHourLine p,
    "Path.SSN " ++ toString p.ssn,
    "Path.frequency " ++ String.intercalate ", " (p.frequencies.map (qToFixed 3)),
    txpowerLine p,
    "Path.BW 3000",
    "Path.SNRr " ++ toString p.requiredSNR,
    "Path.SNRXXp " ++ toString p.requiredReliability,
    "Path.ManMadeNoise \"" ++ p.manMadeNoise ++ "\"",
    "Path.Modulation ANALOG",
    "Path.SorL SHORTPATH",
    "LL.lat " ++ qToFixed 4 p.rxLat,
    "LL.lng " ++ qToFixed 4 p.rxLon,
    "LR.lat " ++ qToFixed 4 p.rxLat,
    "LR.lng " ++ qToFixed 4 p.rxLon,
    "UL.lat " ++ qToFixed 4 p.rxLat,
    "UL.lng " ++ qToFixed 4 p.rxLon,
    "UR.lat " ++ qToFixed 4 p.rxLat,
    "UR.lng " ++ qToFixed 4 p.rxLon,
    "DataFilePath \"" ++ ITURHFPROP_DATA ++ "/Data/\"",
    "RptFilePath \"/tmp/\"",
    "RptFileFormat \"RPT_PR | RPT_SNR | RPT_BCR\"" ]

/-! ## Claim C3 -/

/-- C3.  For a valid request (hour a number 0–23), the serialized input
contains a `Path.hour` line equal to 24 when the hour is 0, and equal to
the hour itself otherwise. -/
theorem generateInputFile_hour_rule (p : PredParams) (h : ℤ)
    (hp : p.hour = some h) (h0 : 0 ≤ h) (h24 : h < 24) :
    pathHourLine p ∈ generateInputFile p ∧
      (h = 0 → pathHourLine p = "Path.hour 24") ∧
      (h ≠ 0 → pathHourLine p = "Path.hour " ++ toString h) := by
  refine ⟨?_, ?_, ?_⟩
  · simp [generateInputFile]
  · intro hz
    subst hz
    rw [pathHourLine, hp]
    rfl
  · intro hnz
    rw [pathHourLine, hp, pathHourVal, if_neg hnz]

/-- Sample request used to instantiate the serializer claims. -/
def sampleParams : PredParams :=
  { txLat := 40, txLon := -74, rxLat := 51, rxLon := 0, year := 2025, month := 6,
    hour := some 0, ssn := 100, txPower := 100, frequencies := [2, 141/10],
    manMadeNoise := "RESIDENTIAL", requiredReliability := 90, requiredSNR := 15 }

/-- Witness for C3 at hour 0. -/
theorem generateInputFile_hour_rule_witness :
    pathHourLine sampleParams ∈ generateInputFile sampleParams ∧
      ((0:ℤ) = 0 → pathHourLine sampleParams = "Path.hour 24") ∧
      ((0:ℤ) ≠ 0 → pathHourLine sampleParams = "Path.hour " ++ toString (0:ℤ)) :=
  generateInputFile_hour_rule sampleParams 0 rfl (by decide!) (by decide!)

/-! ## Claim C9 -/

theorem txpowerReal_100 : txpowerReal 100 = -10 := by
  rw [txpowerReal, show (((100:ℚ):ℝ) / 1000) = ((10:ℝ))⁻¹ by norm_num,
    Real.logb, Real.log_inv]
  rw [show -Real.log 10 / Real.log 10 = -(Real.log 10 / Real.log 10) by ring]
  rw [div_self (Real.log_ne_zero_of_pos_of_ne_one (by norm_num) (by norm_num))]
  norm_num

/-- C9.  For transmit power 100 W, the `Path.txpower` field is
`10·log10(100/1000)` rounded to 1 decimal, rendered as `-10.0`. -/
theorem generateInputFile_txpower_100 (p : PredParams) (hp : p.txPower = 100) :
    txpowerLine p ∈ generateInputFile p ∧
      txpowerLine p = "Path.txpower -10.0" := by
  constructor
  · simp [generateInputFile]
  · rw [txpowerLine, hp, txpowerReal_100, rToFixed,
      if_pos (by norm_num : (-10:ℝ) < 0),
      show |(-10:ℝ)| = 10 by norm_num,
      show ⌊(10:ℝ) * 10 ^ 1 + 1/2⌋ = 100 from Int.floor_eq_iff.mpr (by norm_num)]
    rfl

/-- Witness for C9. -/
theorem generateInputFile_txpower_100_witness :
    txpowerLine sampleParams ∈ generateInputFile sampleParams ∧
      txpowerLine sampleParams = "Path.txpower -10.0" :=
  generateInputFile_txpower_100 sampleParams rfl

/-! ## Claim C10 -/

/-- JavaScript `a || b` on number-or-NaN values: a number is falsy
exactly when it is 0 or NaN. -/
def jsOr (a b : Option ℤ) : Option ℤ :=
  match a with
  | some n => if n ≠ 0 then some n else b
  | none => b

/-- `parseInt(hour) || new Date().getUTCHours() || 12` — the hour the
single-point endpoint passes to the pipeline; `parsed = none` models a
NaN `parseInt`. -/
def effectiveHour (parsed : Option ℤ) (utcHour : ℤ) : Option ℤ :=
  jsOr (jsOr parsed (some utcHour)) (some 12)

/-- C10.  The single-point endpoint never passes hour 0 onward: a query
hour parsing to 0 (or failing to parse) is replaced by the current UTC
hour, itself replaced by 12 when it is 0 — so the hour-0 (engine hour 24)
prediction, though supported by the serializer, is unreachable here. -/
theorem effectiveHour_never_zero (parsed : Option ℤ) (utc : ℤ) :
    (parsed = some 0 ∨ parsed = none →
        effectiveHour parsed utc = some (if utc = 0 then 12 else utc)) ∧
      effectiveHour parsed utc ≠ some 0 ∧
      pathHourVal (some 0) = 24 := by
  refine ⟨?_, ?_, rfl⟩
  · intro hcase
    have hone : jsOr parsed (some utc) = some utc := by
      rcases hcase with rfl | rfl
      · simp [jsOr]
      · rfl
    rw [effectiveHour, hone, jsOr]
    by_cases hu : utc = 0
    · simp [hu]
    · simp [hu]
  · cases hpp : jsOr parsed (some utc) with
    | none => rw [effectiveHour, hpp]; simp [jsOr]
    | some n =>
      rw [effectiveHour, hpp]
      by_cases hn : n = 0
      · subst hn; simp [jsOr]
      · simp [jsOr, hn]

/-! ## The engine runner (`runPrediction`)

The subprocess and the filesystem are the runner's environment: what the
`execSync` call does (`ExecOutcome`: normal exit with stdout, or a thrown
execution error — non-zero exit or timeout — carrying captured
stdout/stderr), whether `writeFileSync` throws, whether the engine left a
report at the output path, whether the diagnostic `readdirSync('/tmp')`
in the missing-report branch throws, and whether each `unlinkSync` of the
`finally` cleanup throws.  The scratch files are the state: `FSState`
records whether the invocation's input and output files exist. -/

/-- What `execSync` does: a normal exit with stdout, or a thrown
execution error (non-zero exit status or timeout) whose stdout/stderr the
catch block captures without rethrowing. -/
inductive ExecOutcome where
  | ok (stdout : String)
  | err (stdout stderr : String)

/-- The environment of one `runPrediction` call. -/
structure RunEnv where
  writeError : Option String
  execOutcome : ExecOutcome
  engineReport : Option String
  listTmpError : Option String
  unlinkInputFails : Bool
  unlinkOutputFails : Bool

/-- Existence of the invocation's two scratch files. -/
structure FSState where
  inputExists : Bool
  outputExists : Bool
  deriving Repr, DecidableEq

/-- What `runPrediction` resolves with: the parse result plus the
captured stdout/stderr diagnostics and the generated input text. -/
structure RunResult where
  parse : ParseResult
  execStdout : String
  execStderr : String
  inputContent : List String

/-- The message `readFileSync` throws for the missing report file. -/
def missingReportError : String := "ENOENT: no such file or directory"

/-- The `finally` block:
`try { if (exists input) unlink(input); if (exists output) unlink(output) }
catch (e) { /* ignore */ }`.  A throw from the first `unlinkSync` is
swallowed by the catch, so the second unlink is never attempted and both
files survive; a throw from the second leaves the output file behind. -/
def cleanupTemp (fs : FSState) (unlinkInputFails unlinkOutputFails : Bool) : FSState :=
  if fs.inputExists && unlinkInputFails then fs
  else
    let fs1 : FSState := { fs with inputExists := false }
    if fs1.outputExists && unlinkOutputFails then fs1
    else { fs1 with outputExists := false }

/-- The `try` body of `runPrediction`: write the input file (its throw
propagates), run the engine (a thrown execution error is caught and its
stdout/stderr kept — never rethrown), list `/tmp` when no report appeared
(that throw propagates), and parse the report path. -/
noncomputable def runBody (p : PredParams) (env : RunEnv) :
    Except String RunResult × FSState :=
  match env.writeError with
  | some m => (.error m, { inputExists := false, outputExists := false })
  | none =>
    let fs : FSState := { inputExists := true, outputExists := env.engineReport.isSome }
    let so := match env.execOutcome with
      | .ok o => o
      | .err o _ => o
    let se := match env.execOutcome with
      | .ok _ => ""
      | .err _ e => e
    match env.engineReport with
    | some rpt =>
      (.ok { parse := parseOutputFile (.ok rpt), execStdout := so, execStderr := se,
             inputContent := generateInputFile p }, fs)
    | none =>
      match env.listTmpError with
      | some m => (.error m, fs)
      | none =>
        (.ok { parse := parseOutputFile (.error missingReportError), execStdout := so,
               execStderr := se, inputContent := generateInputFile p }, fs)

/-- `runPrediction`: the body under `try`, then the `finally` cleanup on
every exit path, normal or thrown. -/
noncomputable def runPrediction (p : PredParams) (env : RunEnv) :
    Except String RunResult × FSState :=
  let r := runBody p env
  (r.1, cleanupTemp r.2 env.unlinkInputFails env.unlinkOutputFails)

/-! ## Claim C4 -/

/-- C4.  When the engine exits non-zero (or times out), `runPrediction`
does not propagate the execution error: with a report file present it
returns the parse of that report together with the captured stdout and
stderr; with no report file (and the diagnostic directory listing not
itself throwing) it still returns normally, the parse step having
absorbed the read failure. -/
theorem runPrediction_nonzero_exit_still_parses (p : PredParams) (env : RunEnv)
    (so se : String)
    (hw : env.writeError = none) (he : env.execOutcome = .err so se) :
    (∀ rpt, env.engineReport = some rpt →
        (runPrediction p env).1 =
          .ok ⟨parseOutputFile (.ok rpt), so, se, generateInputFile p⟩) ∧
      (env.engineReport = none → env.listTmpError = none →
        (runPrediction p env).1 =
          .ok ⟨parseOutputFile (.error missingReportError), so, se,
            generateInputFile p⟩) := by
  constructor
  · intro rpt hrpt
    simp [runPrediction, runBody, hw, he, hrpt]
  · intro hnone hlist
    simp [runPrediction, runBody, hw, he, hnone, hlist]

/-- A failing-engine environment that still left a report. -/
def sampleEnvErr : RunEnv :=
  { writeError := none, execOutcome := .err "engine stdout" "engine stderr",
    engineReport := some "Calculated Parameters", listTmpError := none,
    unlinkInputFails := false, unlinkOutputFails := false }

/-- Witness for C4. -/
theorem runPrediction_nonzero_exit_still_parses_witness :
    (∀ rpt, sampleEnvErr.engineReport = some rpt →
        (runPrediction sampleParams sampleEnvErr).1 =
          .ok ⟨parseOutputFile (.ok rpt), "engine stdout", "engine stderr",
            generateInputFile sampleParams⟩) ∧
      (sampleEnvErr.engineReport = none → sampleEnvErr.listTmpError = none →
        (runPrediction sampleParams sampleEnvErr).1 =
          .ok ⟨parseOutputFile (.error missingReportError), "engine stdout",
            "engine stderr", generateInputFile sampleParams⟩) :=
  runPrediction_nonzero_exit_still_parses sampleParams sampleEnvErr
    "engine stdout" "engine stderr" rfl rfl

/-! ## Claim C5 -/

/-- C5 counterexample.  The cleanup's own errors are swallowed: when the
engine ran and left a report but the input file's `unlinkSync` throws
(e.g. EACCES), the catch arm skips the remaining unlink and BOTH scratch
files still exist after the call returns — the claim's "no longer exist
... on every exit path" fails on this path. -/
theorem runPrediction_unlink_failure_leaves_files :
    (runPrediction sampleParams
        { writeError := none, execOutcome := .ok "", engineReport := some "report",
          listTmpError := none, unlinkInputFails := true,
          unlinkOutputFails := false }).2.inputExists = true ∧
      (runPrediction sampleParams
        { writeError := none, execOutcome := .ok "", engineReport := some "report",
          listTmpError := none, unlinkInputFails := true,
          unlinkOutputFails := false }).2.outputExists = true :=
  ⟨rfl, rfl⟩

/-- C5 as amended.  The `finally` cleanup executes on every exit path —
success, engine failure, timeout, or an exception thrown anywhere in the
body — and, provided the unlink operations themselves do not throw,
neither the invocation's input file nor its output file exists after the
call returns.  (Unlink errors are ignored by the source's catch arm, and
on that path the files survive.) -/
theorem runPrediction_cleans_temp_files (p : PredParams) (env : RunEnv)
    (hin : env.unlinkInputFails = false) (hout : env.unlinkOutputFails = false) :
    (runPrediction p env).2.inputExists = false ∧
      (runPrediction p env).2.outputExists = false := by
  rw [show (runPrediction p env).2
      = cleanupTemp (runBody p env).2 env.unlinkInputFails env.unlinkOutputFails from rfl,
    hin, hout, cleanupTemp]
  simp

/-- An environment whose unlinks succeed. -/
def sampleEnvOk : RunEnv :=
  { writeError := none, execOutcome := .ok "engine stdout",
    engineReport := some "Calculated Parameters", listTmpError := none,
    unlinkInputFails := false, unlinkOutputFails := false }

/-- Witness for C5 as amended. -/
theorem runPrediction_cleans_temp_files_witness :
    (runPrediction sampleParams sampleEnvOk).2.inputExists = false ∧
      (runPrediction sampleParams sampleEnvOk).2.outputExists = false :=
  runPrediction_cleans_temp_files sampleParams sampleEnvOk rfl rfl

/-! ## The hourly batch loop (`GET /api/predict/hourly`) -/

/-- One entry of the hourly response: the hour with MUF and frequency
list on success, or the hour with the failure message. -/
inductive HourEntry where
  | ok (hour : ℕ) (muf : Option ℚ) (frequencies : List FreqRec)
  | err (hour : ℕ) (msg : String)

/-- The `try`/`catch` around one hour's `runPrediction` call: push the
reduced result, or push the error marker. -/
def hourEntry (hour : ℕ) : Except String RunResult → HourEntry
  | .ok r => .ok hour r.parse.muf r.parse.frequencies
  | .error e => .err hour e

/-- `{ ...baseParams, hour }`. -/
def withHour (p : PredParams) (h : ℕ) : PredParams := { p with hour := some (h : ℤ) }

/-- The loop `for (let hour = 0; hour < 24; hour++)` pushing one entry
per hour onto `hourlyResults`; `envs` gives each hour's invocation its
environment. -/
noncomputable def hourlyResults (base : PredParams) (envs : ℕ → RunEnv) : List HourEntry :=
  (List.range 24).foldl
    (fun acc hour =>
      acc ++ [hourEntry hour (runPrediction (withHour base hour) (envs hour)).1])
    []

theorem foldl_push_eq_map {α β : Type} (g : α → β) :
    ∀ (l : List α) (acc : List β),
      l.foldl (fun a h => a ++ [g h]) acc = acc ++ l.map g := by
  intro l
  induction l with
  | nil => intro acc; simp
  | cons x t ih => intro acc; rw [List.foldl_cons, ih, List.map_cons]; simp

/-! ## Claim C6 -/

/-- C6.  The hourly batch always returns exactly 24 entries; the entry at
position `i` is for hour `i` (ascending order), and is the reduced
success value or the error marker of that hour's run; and the entry at
position `i` depends only on hour `i`'s own run — a failure elsewhere
neither aborts nor alters it. -/
theorem hourlyResults_24_ordered_isolated (base : PredParams) (envs : ℕ → RunEnv) :
    (hourlyResults base envs).length = 24 ∧
      (∀ i, i < 24 →
        (hourlyResults base envs)[i]? =
          some (hourEntry i (runPrediction (withHour base i) (envs i)).1)) ∧
      (∀ (envs' : ℕ → RunEnv) i, i < 24 → envs i = envs' i →
        (hourlyResults base envs)[i]? = (hourlyResults base envs')[i]?) := by
  have hmap : ∀ es : ℕ → RunEnv, hourlyResults base es =
      (List.range 24).map fun h => hourEntry h (runPrediction (withHour base h) (es h)).1 := by
    intro es
    rw [hourlyResults, foldl_push_eq_map]
    simp
  refine ⟨?_, ?_, ?_⟩
  · rw [hmap]; simp
  · intro i hi
    rw [hmap, List.getElem?_map, List.getElem?_range hi]
    rfl
  · intro envs' i hi he
    rw [hmap, hmap, List.getElem?_map, List.getElem?_map, List.getElem?_range hi]
    simp [he]

end HFProp
